import Mathlib

/-!
Shallow embedding of the SoC Performance-Power-Thermal simulator core,
translated from src/src/App.tsx.  The engine is the body of the main
interval loop (App.tsx lines 117-214) plus the reset handler (lines 93-100)
and the governor decision (lines 127-155).  JavaScript numbers are modelled
as real numbers; Math.exp is Real.exp; the P-state table index is an
integer, as JS arithmetic on it is ordinary number arithmetic.

The source applies display rounding (`+x.toFixed(n)`) when it copies values
into the chart points; that formatting is presentation-layer concern, so the
Sample record here carries the exact values the engine computed.
-/

namespace Soc

noncomputable section

open Real

/-- `clamp` from App.tsx line 22: `Math.max(lo, Math.min(hi, x))`. -/
def clamp (x lo hi : ℝ) : ℝ := max lo (min hi x)

-- Fixed model parameters (App.tsx lines 46, 51-69).
def Rth : ℝ := 8.0
def Pleak0 : ℝ := 0.6
def kV : ℝ := 2.0
def gammaT : ℝ := 0.04
def IPCmin : ℝ := 0.5
def IPCmax : ℝ := 2.0
def dt : ℝ := 0.25
def fMin : ℝ := 0.6
def fMax : ℝ := 3.5
def vMin : ℝ := 0.6
def vMax : ℝ := 1.1
def slewStepSec : ℝ := 0.3

/-- One P-state table entry (frequency in GHz, voltage in V). -/
structure PState where
  f : ℝ
  V : ℝ

/-- The P-state table, App.tsx lines 59-67. -/
def pstates : List PState :=
  [⟨3.0, 1.05⟩, ⟨2.6, 0.98⟩, ⟨2.2, 0.92⟩, ⟨1.8, 0.86⟩,
   ⟨1.4, 0.80⟩, ⟨1.0, 0.74⟩, ⟨0.8, 0.70⟩]

/-- Number of P-states (7 in the reference table). -/
def nStates : ℕ := pstates.length

/-- Table lookup by (integer) index. -/
def pstate (i : ℤ) : PState := pstates.getD i.toNat ⟨0, 0⟩

/-- The user-facing configuration knobs read by the loop. -/
structure Config where
  workloadMix : ℝ
  ceffNF : ℝ
  manualOverride : Bool
  freqGHz : ℝ
  vdd : ℝ
  ambient : ℝ
  thermalLimit : ℝ
  overheatGrace : ℝ
  batteryWh : ℝ
  workloadGI : ℝ
  tauSec : ℝ

/-- `alpha = 0.5 + 0.5 * workloadMix` (App.tsx line 72). -/
def alpha (cfg : Config) : ℝ := 0.5 + 0.5 * cfg.workloadMix

/-- `ipc = IPCmin + (IPCmax - IPCmin) * workloadMix` (App.tsx line 73). -/
def ipc (cfg : Config) : ℝ := IPCmin + (IPCmax - IPCmin) * cfg.workloadMix

/-- `targetPIndex` (App.tsx lines 106-110): `clamp(Math.round((1 - mix) * (n-1)), 0, n-1)`;
JS `Math.round x = ⌊x + 1/2⌋`, which is Mathlib's `round`. -/
def targetPIndex (cfg : Config) : ℤ :=
  max 0 (min (nStates - 1 : ℤ) (round ((1 - cfg.workloadMix) * ((nStates : ℤ) - 1))))

/-- The mutable refs carried across sub-steps (App.tsx lines 82-91). -/
structure SimState where
  T : ℝ
  EWh : ℝ
  t : ℝ
  overheatAccum : ℝ
  remainingGI : ℝ
  slewCooldown : ℝ
  pIndex : ℤ
  f : ℝ
  V : ℝ

/-- Termination reasons (`EndReason`, App.tsx line 20). -/
inductive EndReason
  | running | completed | battery | overheat | reset
  deriving DecidableEq, Repr

/-- `resetSim` (App.tsx lines 93-100): seeds temperature at ambient, zeroes the
accumulators, reloads the workload, and pins the governor at table index 2. -/
def resetSim (cfg : Config) : SimState :=
  { T := cfg.ambient, EWh := 0, t := 0, overheatAccum := 0,
    remainingGI := cfg.workloadGI, slewCooldown := 0,
    pIndex := 2, f := (pstate 2).f, V := (pstate 2).V }

/-- The slew cooldown after the decrement at App.tsx line 130:
`if (slewCooldown > 0) slewCooldown = max(0, slewCooldown - h)`. -/
def cooldownAfterDec (s : SimState) (h : ℝ) : ℝ :=
  if s.slewCooldown > 0 then max 0 (s.slewCooldown - h) else s.slewCooldown

/-- The governor's desired index (App.tsx lines 132-140): thermal forcing with
hysteresis, then the low-battery floor. -/
def desiredIndex (cfg : Config) (s : SimState) : ℤ :=
  let cur := s.pIndex
  let d1 : ℤ :=
    if s.T ≥ cfg.thermalLimit then min (cur + 1) ((nStates : ℤ) - 1)
    else if s.T > cfg.thermalLimit - 2 then max cur (targetPIndex cfg)
    else targetPIndex cfg
  let battPctNow := max 0 (100 * (1 - s.EWh / cfg.batteryWh))
  if battPctNow < 20 then max d1 3 else d1

/-- Output of the governor block of one sub-step (App.tsx lines 127-155). -/
structure GovOut where
  pIndex : ℤ
  slewCooldown : ℝ
  f : ℝ
  V : ℝ
  thermalTriggered : Bool

/-- The governor block of one sub-step (App.tsx lines 127-155).  In manual
override mode only f and V are written; index and cooldown are untouched. -/
def govStep (cfg : Config) (h : ℝ) (s : SimState) : GovOut :=
  if cfg.manualOverride then
    { pIndex := s.pIndex, slewCooldown := s.slewCooldown,
      f := clamp cfg.freqGHz fMin fMax, V := clamp cfg.vdd vMin vMax,
      thermalTriggered := false }
  else
    let cd0 := cooldownAfterDec s h
    let cur := s.pIndex
    let desired := desiredIndex cfg s
    let idx : ℤ :=
      if cd0 = 0 then
        (if desired < cur then cur - 1 else if desired > cur then cur + 1 else cur)
      else cur
    { pIndex := idx,
      slewCooldown := if idx ≠ cur then slewStepSec else cd0,
      f := if idx ≠ cur then (pstate idx).f else s.f,
      V := if idx ≠ cur then (pstate idx).V else s.V,
      thermalTriggered := if s.T ≥ cfg.thermalLimit then true else false }

/-- One chart point (`SimPoint`, App.tsx lines 17-19), exact values. -/
structure Sample where
  t : ℝ
  power : ℝ
  temp : ℝ
  perfMIPS : ℝ
  energyWh : ℝ
  battPct : ℝ
  f : ℝ
  V : ℝ

/-- Everything one iteration of the while-loop produces. -/
structure StepResult where
  state : SimState
  sample : Sample
  throttling : Bool
  localEnd : Option EndReason

/-- One sub-step: the body of the while-loop, App.tsx lines 123-203, in source
order: governor → performance → power → work/completion → thermal RC →
energy/battery → overheat accumulator → sample → throttling → termination
checks.  `localEnd` reproduces the sequential overwrites of lines 170, 202,
203: a later check that fires replaces the value written by an earlier one. -/
def step (cfg : Config) (h : ℝ) (s : SimState) : StepResult :=
  let g := govStep cfg h s
  let perfGIPS := max 0 (ipc cfg * g.f)
  let perfMIPS := perfGIPS * 1000
  let Pdyn := cfg.ceffNF * g.V * g.V * g.f * alpha cfg
  let Pleak := Pleak0 * exp (kV * (g.V - 0.8)) * exp (gammaT * (s.T - 25))
  let Ptot := Pdyn + Pleak
  let dWorkGI := perfGIPS * h
  let remaining : ℝ := max 0 (s.remainingGI - dWorkGI)
  let e1 : Option EndReason := if remaining ≤ 0 then some .completed else none
  let Cth := max 1e-6 (cfg.tauSec / max 1e-6 Rth)
  let tau := Rth * Cth
  let Tss := cfg.ambient + Ptot * Rth
  let Tnew := s.T + (Tss - s.T) * (1 - exp (-h / tau))
  let EWhNew := s.EWh + Ptot * h / 3600
  let battPct := max 0 (100 * (1 - EWhNew / cfg.batteryWh))
  let accum : ℝ :=
    if Tnew > cfg.thermalLimit + 5 then s.overheatAccum + h
    else max 0 (s.overheatAccum - 2 * h)
  let tNew := s.t + h
  let throttling := g.thermalTriggered || (if Tnew ≥ cfg.thermalLimit then true else false)
  let e2 : Option EndReason := if EWhNew ≥ cfg.batteryWh then some .battery else e1
  let e3 : Option EndReason := if accum ≥ max 1 cfg.overheatGrace then some .overheat else e2
  { state := { T := Tnew, EWh := EWhNew, t := tNew, overheatAccum := accum,
               remainingGI := remaining, slewCooldown := g.slewCooldown,
               pIndex := g.pIndex, f := g.f, V := g.V },
    sample := { t := tNew, power := Ptot, temp := Tnew, perfMIPS := perfMIPS,
                energyWh := EWhNew, battPct := battPct, f := g.f, V := g.V },
    throttling := throttling,
    localEnd := e3 }

/-- State of the engine across sub-steps of one `advance` batch. -/
structure EngineState where
  sim : SimState
  reason : EndReason
  trace : List Sample
  throttling : Bool

/-- The while-loop of one tick (App.tsx lines 123-204): runs sub-steps of size
`min dt vtime` while budget remains and no termination reason has been set.
Fuel bounds the recursion; the loop body always consumes positive budget. -/
def advanceAux (cfg : Config) : ℕ → ℝ → EngineState → EngineState
  | 0, _, es => es
  | fuel + 1, vtime, es =>
    if vtime > 0 ∧ es.reason = .running then
      let h := min dt vtime
      let r := step cfg h es.sim
      advanceAux cfg fuel (vtime - h)
        { sim := r.state, reason := r.localEnd.getD es.reason,
          trace := es.trace ++ [r.sample], throttling := r.throttling }
    else es

/-- Iterated raw sub-steps from a start state along a sequence of step sizes. -/
def stepsFrom (cfg : Config) (s : SimState) (hseq : ℕ → ℝ) : ℕ → SimState
  | 0 => s
  | n + 1 => (step cfg (hseq n) (stepsFrom cfg s hseq n)).state

/-- Simulated time elapsed after `n` sub-steps. -/
def timeAt (hseq : ℕ → ℝ) (n : ℕ) : ℝ := ∑ m ∈ Finset.range n, hseq m

-- Concrete configurations and states used below to evaluate the model.

-- A concrete automatic-mode run exhibiting two index changes 0.3 s apart:
-- pure-compute mix (target index 0), zero effective capacitance, a huge
-- thermal limit, governor started at index 6 with no cooldown, and sub-steps
-- of exactly the slew window.
def cfgW4 : Config := ⟨1, 0, false, 0, 0, 25, 1000, 5, 0.75, 1000, 60⟩

def sW4 : SimState := ⟨25, 0, 0, 0, 1000, 0, 6, 0.8, 0.7⟩

def hseqW : ℕ → ℝ := fun _ => 0.3

-- A start state whose cooldown outlasts the first sub-step.
def sW4b : SimState := ⟨25, 0, 0, 0, 1000, 1, 6, 0.8, 0.7⟩

-- Manual override pinned at (2.2 GHz, 0.9 V), full workload mix, one billion
-- instructions left, battery already exactly exhausted.
def cfgC1 : Config := ⟨1, 1.2, true, 2.2, 0.9, 25, 42, 5, 0.75, 1000, 60⟩

def sC1 : SimState := ⟨25, 0.75, 0, 0, 1, 0, 2, 2.2, 0.92⟩

-- Automatic-mode configuration at the reference knobs, and a state already at
-- the lowest-performance P-state with temperature exactly at the limit.
def cfgC9 : Config := ⟨1, 1.2, false, 2.2, 0.9, 25, 42, 5, 0.75, 1000, 60⟩

def sC9 : SimState := ⟨42, 0, 0, 0, 1000, 0, 6, 0.8, 0.7⟩

end

-- Projection lemmas: each field of a sub-step's result, read off the source.

theorem step_pIndex_eq (cfg : Config) (h : ℝ) (s : SimState) :
    (step cfg h s).state.pIndex = (govStep cfg h s).pIndex := by
  simp only [step]

theorem step_cooldown_eq (cfg : Config) (h : ℝ) (s : SimState) :
    (step cfg h s).state.slewCooldown = (govStep cfg h s).slewCooldown := by
  simp only [step]

theorem step_power_eq (cfg : Config) (h : ℝ) (s : SimState) :
    (step cfg h s).sample.power =
      cfg.ceffNF * (govStep cfg h s).V * (govStep cfg h s).V * (govStep cfg h s).f * alpha cfg
      + Pleak0 * Real.exp (kV * ((govStep cfg h s).V - 0.8))
          * Real.exp (gammaT * (s.T - 25)) := by
  simp only [step]

theorem step_T_eq (cfg : Config) (h : ℝ) (s : SimState) :
    (step cfg h s).state.T =
      s.T + ((cfg.ambient + (step cfg h s).sample.power * Rth) - s.T) *
        (1 - Real.exp (-h / (Rth * max 1e-6 (cfg.tauSec / max 1e-6 Rth)))) := by
  simp only [step]

theorem step_EWh_eq (cfg : Config) (h : ℝ) (s : SimState) :
    (step cfg h s).state.EWh = s.EWh + (step cfg h s).sample.power * h / 3600 := by
  simp only [step]

theorem step_remaining_eq (cfg : Config) (h : ℝ) (s : SimState) :
    (step cfg h s).state.remainingGI =
      max 0 (s.remainingGI - max 0 (ipc cfg * (govStep cfg h s).f) * h) := by
  simp only [step]

theorem step_accum_eq (cfg : Config) (h : ℝ) (s : SimState) :
    (step cfg h s).state.overheatAccum =
      if (step cfg h s).state.T > cfg.thermalLimit + 5 then s.overheatAccum + h
      else max 0 (s.overheatAccum - 2 * h) := by
  simp only [step]

theorem step_throttling_eq (cfg : Config) (h : ℝ) (s : SimState) :
    (step cfg h s).throttling =
      ((govStep cfg h s).thermalTriggered
        || (if (step cfg h s).state.T ≥ cfg.thermalLimit then true else false)) := by
  simp only [step]

theorem step_localEnd_eq (cfg : Config) (h : ℝ) (s : SimState) :
    (step cfg h s).localEnd =
      if (step cfg h s).state.overheatAccum ≥ max 1 cfg.overheatGrace then some EndReason.overheat
      else if (step cfg h s).state.EWh ≥ cfg.batteryWh then some EndReason.battery
      else if (step cfg h s).state.remainingGI ≤ 0 then some EndReason.completed
      else none := by
  simp only [step]

/-- C2: every sub-step's new temperature is exactly
`T + (T_ss - T) * (1 - exp (-h/τ))` with `T_ss = ambient + P · R_th`, `P` the
power of the same sub-step, and `τ` the configured time constant floored above
a small epsilon; the equality holds for every step size `h`. -/
theorem step_thermal_exact (cfg : Config) (h : ℝ) (s : SimState) :
    (step cfg h s).state.T =
      s.T + ((cfg.ambient + (step cfg h s).sample.power * Rth) - s.T) *
        (1 - Real.exp (-h / (Rth * max 1e-6 (cfg.tauSec / max 1e-6 Rth)))) ∧
    Rth * max 1e-6 (cfg.tauSec / max 1e-6 Rth) = max 8e-6 cfg.tauSec := by
  constructor
  · simp [step]
  · have h1 : max (1e-6 : ℝ) Rth = Rth := max_eq_right (by rw [Rth]; norm_num)
    have h2 : Rth * (cfg.tauSec / Rth) = cfg.tauSec := by rw [Rth]; ring
    have h3 : Rth * (1e-6 : ℝ) = 8e-6 := by rw [Rth]; norm_num
    rw [h1, mul_max_of_nonneg _ _ (by rw [Rth]; norm_num : (0:ℝ) ≤ Rth), h2, h3]

/-- C3: the power recorded in the Sample is `P_dyn + P_leak` with
`P_dyn = C_eff · V² · f · α` and
`P_leak = P_leak0 · exp(k_V·(V − 0.8)) · exp(γ·(T − 25))`, evaluated at the
sub-step's active operating point and the pre-update temperature `s.T`. -/
theorem step_power_model (cfg : Config) (h : ℝ) (s : SimState) :
    (step cfg h s).sample.power =
      cfg.ceffNF * (govStep cfg h s).V ^ 2 * (govStep cfg h s).f * alpha cfg
      + Pleak0 * Real.exp (kV * ((govStep cfg h s).V - 0.8))
          * Real.exp (gammaT * (s.T - 25)) := by
  simp only [step]
  ring

/-- C5: per sub-step the overheat accumulator gains `h` while temperature
exceeds `thermalLimit + 5` and otherwise decays by `2·h` clamped at 0, and the
overheat termination is signalled exactly when the accumulator reaches
`max 1 configuredGraceSec` (grace floored at 1 s). -/
theorem step_overheat_accumulator (cfg : Config) (h : ℝ) (s : SimState) :
    (step cfg h s).state.overheatAccum =
      (if (step cfg h s).state.T > cfg.thermalLimit + 5 then s.overheatAccum + h
       else max 0 (s.overheatAccum - 2 * h)) ∧
    ((step cfg h s).localEnd = some EndReason.overheat ↔
      (step cfg h s).state.overheatAccum ≥ max 1 cfg.overheatGrace) := by
  refine ⟨by simp [step], ?_⟩
  simp only [step]
  split_ifs <;> simp_all

/-- C6: with manual override on, the sub-step's operating point is exactly
`(clamp freq fMin fMax, clamp vdd vMin vMax)` in state and sample, and the
governor's index and cooldown are left untouched. -/
theorem step_manual_override (cfg : Config) (h : ℝ) (s : SimState)
    (hm : cfg.manualOverride = true) :
    (step cfg h s).state.f = clamp cfg.freqGHz fMin fMax ∧
    (step cfg h s).state.V = clamp cfg.vdd vMin vMax ∧
    (step cfg h s).sample.f = clamp cfg.freqGHz fMin fMax ∧
    (step cfg h s).sample.V = clamp cfg.vdd vMin vMax ∧
    (step cfg h s).state.pIndex = s.pIndex ∧
    (step cfg h s).state.slewCooldown = s.slewCooldown := by
  simp [step, govStep, hm]

/-- Witness for C6 at a concrete manual-override configuration and state. -/
theorem step_manual_override_witness :
    (step cfgC1 0.25 sC1).state.f = clamp cfgC1.freqGHz fMin fMax ∧
    (step cfgC1 0.25 sC1).state.V = clamp cfgC1.vdd vMin vMax ∧
    (step cfgC1 0.25 sC1).sample.f = clamp cfgC1.freqGHz fMin fMax ∧
    (step cfgC1 0.25 sC1).sample.V = clamp cfgC1.vdd vMin vMax ∧
    (step cfgC1 0.25 sC1).state.pIndex = sC1.pIndex ∧
    (step cfgC1 0.25 sC1).state.slewCooldown = sC1.slewCooldown :=
  step_manual_override cfgC1 0.25 sC1 rfl

/-- C7: each sub-step subtracts rate × h from the remaining workload and clamps
at 0, so remaining workload is non-increasing and never negative. -/
theorem step_workload_monotone (cfg : Config) (h : ℝ) (s : SimState)
    (hh : 0 ≤ h) (hr : 0 ≤ s.remainingGI) :
    (step cfg h s).state.remainingGI =
      max 0 (s.remainingGI - max 0 (ipc cfg * (govStep cfg h s).f) * h) ∧
    (step cfg h s).state.remainingGI ≤ s.remainingGI ∧
    0 ≤ (step cfg h s).state.remainingGI := by
  refine ⟨by simp [step], ?_, ?_⟩
  · have hd : 0 ≤ max 0 (ipc cfg * (govStep cfg h s).f) * h :=
      mul_nonneg (le_max_left _ _) hh
    simp only [step]
    exact max_le hr (by linarith)
  · simp only [step]
    exact le_max_left _ _

/-- Witness for C7 at a concrete configuration, state and step size. -/
theorem step_workload_monotone_witness :
    (step cfgC1 0.25 sC1).state.remainingGI =
      max 0 (sC1.remainingGI - max 0 (ipc cfgC1 * (govStep cfgC1 0.25 sC1).f) * 0.25) ∧
    (step cfgC1 0.25 sC1).state.remainingGI ≤ sC1.remainingGI ∧
    0 ≤ (step cfgC1 0.25 sC1).state.remainingGI :=
  step_workload_monotone cfgC1 0.25 sC1 (by norm_num) (by norm_num [sC1])

-- Per-step governor facts used by the slew-rate development.

theorem cooldownAfterDec_ge (s : SimState) (h : ℝ) (hh : 0 ≤ h) :
    s.slewCooldown - h ≤ cooldownAfterDec s h := by
  unfold cooldownAfterDec
  split_ifs with hc
  · exact le_max_right _ _
  · linarith [not_lt.mp hc]

theorem gov_change (cfg : Config) (h : ℝ) (s : SimState)
    (hman : cfg.manualOverride = false)
    (hch : (govStep cfg h s).pIndex ≠ s.pIndex) :
    cooldownAfterDec s h = 0 ∧ (govStep cfg h s).slewCooldown = slewStepSec ∧
    ((govStep cfg h s).pIndex = s.pIndex + 1 ∨
      (govStep cfg h s).pIndex = s.pIndex - 1) := by
  simp only [govStep, hman, Bool.false_eq_true, if_false] at hch ⊢
  split_ifs at hch ⊢ <;> simp_all

theorem gov_nochange_cooldown (cfg : Config) (h : ℝ) (s : SimState)
    (hman : cfg.manualOverride = false)
    (hnch : (govStep cfg h s).pIndex = s.pIndex) :
    (govStep cfg h s).slewCooldown = cooldownAfterDec s h := by
  simp only [govStep, hman, Bool.false_eq_true, if_false] at hnch ⊢
  split_ifs at hnch ⊢ <;> simp_all

theorem gov_nochange_of_cooldown_pos (cfg : Config) (h : ℝ) (s : SimState)
    (hman : cfg.manualOverride = false)
    (hcd : cooldownAfterDec s h ≠ 0) :
    (govStep cfg h s).pIndex = s.pIndex := by
  simp only [govStep, hman, Bool.false_eq_true, if_false]
  rw [if_neg hcd]

theorem timeAt_succ (hseq : ℕ → ℝ) (n : ℕ) :
    timeAt hseq (n + 1) = timeAt hseq n + hseq n := by
  simp [timeAt, Finset.sum_range_succ]

theorem timeAt_mono (hseq : ℕ → ℝ) (hpos : ∀ k, 0 ≤ hseq k) {m n : ℕ}
    (hmn : m ≤ n) : timeAt hseq m ≤ timeAt hseq n := by
  unfold timeAt
  exact Finset.sum_le_sum_of_subset_of_nonneg
    (Finset.range_subset.mpr hmn) (fun i _ _ => hpos i)

/-- After an index change in sub-step `i`, the cooldown at any later state `k`
is still at least the slew window minus the simulated time elapsed since the
change. -/
theorem cooldown_lower_bound (cfg : Config) (s : SimState) (hseq : ℕ → ℝ)
    (hman : cfg.manualOverride = false) (hpos : ∀ k, 0 ≤ hseq k) (i : ℕ)
    (hchi : (stepsFrom cfg s hseq (i + 1)).pIndex ≠ (stepsFrom cfg s hseq i).pIndex) :
    ∀ k, i + 1 ≤ k →
      slewStepSec - (timeAt hseq k - timeAt hseq (i + 1)) ≤
        (stepsFrom cfg s hseq k).slewCooldown := by
  intro k hk
  induction k, hk using Nat.le_induction with
  | base =>
    have h1 : (stepsFrom cfg s hseq (i + 1)).slewCooldown = slewStepSec := by
      have := (gov_change cfg (hseq i) (stepsFrom cfg s hseq i) hman
        (by rw [← step_pIndex_eq]; exact hchi)).2.1
      rw [stepsFrom, step_cooldown_eq]
      exact this
    rw [h1]
    linarith
  | succ n hn ih =>
    have hstep : stepsFrom cfg s hseq (n + 1) = (step cfg (hseq n) (stepsFrom cfg s hseq n)).state := rfl
    by_cases hch : (stepsFrom cfg s hseq (n + 1)).pIndex = (stepsFrom cfg s hseq n).pIndex
    · have hcd : (stepsFrom cfg s hseq (n + 1)).slewCooldown =
          cooldownAfterDec (stepsFrom cfg s hseq n) (hseq n) := by
        rw [hstep, step_cooldown_eq]
        exact gov_nochange_cooldown cfg (hseq n) (stepsFrom cfg s hseq n) hman
          (by rw [← step_pIndex_eq, ← hstep]; exact hch)
      rw [hcd]
      have hge := cooldownAfterDec_ge (stepsFrom cfg s hseq n) (hseq n) (hpos n)
      rw [timeAt_succ]
      linarith
    · have hcd : (stepsFrom cfg s hseq (n + 1)).slewCooldown = slewStepSec := by
        rw [hstep, step_cooldown_eq]
        exact (gov_change cfg (hseq n) (stepsFrom cfg s hseq n) hman
          (by rw [← step_pIndex_eq, ← hstep]; exact hch)).2.1
      rw [hcd]
      have hmono : timeAt hseq (i + 1) ≤ timeAt hseq (n + 1) :=
        timeAt_mono hseq hpos (by omega)
      linarith

/-- C4: in automatic mode, along any run of sub-steps of non-negative sizes:
(1) if the governor index changes in sub-step `i` (at simulated time
`timeAt (i+1)`) and again in a later sub-step `j`, the second change occurs no
earlier than `slewStepSec` after the first; (2) while the cooldown stays
positive through a sub-step no index change occurs; (3) every accepted change
moves the index by exactly one table step and resets the cooldown to the slew
window. -/
theorem governor_slew_limited (cfg : Config) (s : SimState) (hseq : ℕ → ℝ)
    (hman : cfg.manualOverride = false) (hpos : ∀ k, 0 ≤ hseq k) :
    (∀ i j : ℕ, i < j →
        (stepsFrom cfg s hseq (i + 1)).pIndex ≠ (stepsFrom cfg s hseq i).pIndex →
        (stepsFrom cfg s hseq (j + 1)).pIndex ≠ (stepsFrom cfg s hseq j).pIndex →
        timeAt hseq (i + 1) + slewStepSec ≤ timeAt hseq (j + 1)) ∧
    (∀ k : ℕ, hseq k < (stepsFrom cfg s hseq k).slewCooldown →
        (stepsFrom cfg s hseq (k + 1)).pIndex = (stepsFrom cfg s hseq k).pIndex) ∧
    (∀ k : ℕ,
        (stepsFrom cfg s hseq (k + 1)).pIndex ≠ (stepsFrom cfg s hseq k).pIndex →
        ((stepsFrom cfg s hseq (k + 1)).pIndex = (stepsFrom cfg s hseq k).pIndex + 1 ∨
          (stepsFrom cfg s hseq (k + 1)).pIndex = (stepsFrom cfg s hseq k).pIndex - 1) ∧
        (stepsFrom cfg s hseq (k + 1)).slewCooldown = slewStepSec) := by
  refine ⟨?_, ?_, ?_⟩
  · intro i j hij hchi hchj
    have hbound := cooldown_lower_bound cfg s hseq hman hpos i hchi j (by omega)
    have hcd0 : cooldownAfterDec (stepsFrom cfg s hseq j) (hseq j) = 0 :=
      (gov_change cfg (hseq j) (stepsFrom cfg s hseq j) hman
        (by rw [← step_pIndex_eq]; exact hchj)).1
    have hge := cooldownAfterDec_ge (stepsFrom cfg s hseq j) (hseq j) (hpos j)
    rw [hcd0] at hge
    rw [timeAt_succ hseq j]
    linarith
  · intro k hlt
    have hc0 : 0 < (stepsFrom cfg s hseq k).slewCooldown :=
      lt_of_le_of_lt (hpos k) hlt
    have hcd : cooldownAfterDec (stepsFrom cfg s hseq k) (hseq k) ≠ 0 := by
      unfold cooldownAfterDec
      rw [if_pos hc0]
      have : 0 < (stepsFrom cfg s hseq k).slewCooldown - hseq k := by linarith
      have hmax : 0 < max 0 ((stepsFrom cfg s hseq k).slewCooldown - hseq k) :=
        lt_of_lt_of_le this (le_max_right _ _)
      exact ne_of_gt hmax
    rw [stepsFrom, step_pIndex_eq]
    exact gov_nochange_of_cooldown_pos cfg (hseq k) (stepsFrom cfg s hseq k) hman hcd
  · intro k hch
    have hch' : (govStep cfg (hseq k) (stepsFrom cfg s hseq k)).pIndex ≠
        (stepsFrom cfg s hseq k).pIndex := by
      rw [← step_pIndex_eq]; exact hch
    have hg := gov_change cfg (hseq k) (stepsFrom cfg s hseq k) hman hch'
    constructor
    · rw [stepsFrom, step_pIndex_eq]
      exact hg.2.2
    · rw [stepsFrom, step_cooldown_eq]
      exact hg.2.1

theorem exp_decay_bounds (cfg : Config) (h : ℝ) (hh : 0 ≤ h) :
    0 < Real.exp (-h / (Rth * max 1e-6 (cfg.tauSec / max 1e-6 Rth))) ∧
    Real.exp (-h / (Rth * max 1e-6 (cfg.tauSec / max 1e-6 Rth))) ≤ 1 := by
  have htau : 0 < Rth * max 1e-6 (cfg.tauSec / max 1e-6 Rth) := by
    have h1 : (0 : ℝ) < Rth := by rw [Rth]; norm_num
    exact mul_pos h1 (lt_of_lt_of_le (by norm_num) (le_max_left _ _))
  refine ⟨Real.exp_pos _, ?_⟩
  rw [← Real.exp_zero]
  exact Real.exp_le_exp.mpr (div_nonpos_of_nonpos_of_nonneg (by linarith) htau.le)

theorem w4_target : targetPIndex cfgW4 = 0 := by
  simp only [targetPIndex, nStates, pstates, List.length_cons, List.length_nil, cfgW4]
  norm_num [min_def, max_def]

theorem w4_cd0 : cooldownAfterDec sW4 0.3 = 0 := by
  norm_num [cooldownAfterDec, sW4]

theorem w4_des0 : desiredIndex cfgW4 sW4 = 0 := by
  simp only [desiredIndex]
  rw [w4_target]
  norm_num [cfgW4, sW4, min_def, max_def]

theorem w4_gov0_pIndex : (govStep cfgW4 0.3 sW4).pIndex = 5 := by
  have hm : cfgW4.manualOverride = false := rfl
  simp only [govStep, hm, Bool.false_eq_true, if_false, w4_cd0, w4_des0]
  norm_num [sW4]

theorem w4_gov0_cooldown : (govStep cfgW4 0.3 sW4).slewCooldown = slewStepSec := by
  have hm : cfgW4.manualOverride = false := rfl
  simp only [govStep, hm, Bool.false_eq_true, if_false, w4_cd0, w4_des0]
  norm_num [sW4]

theorem pstate5_eq : pstate 5 = ⟨1.0, 0.74⟩ := rfl

theorem w4_gov0_f : (govStep cfgW4 0.3 sW4).f = 1 := by
  have hm : cfgW4.manualOverride = false := rfl
  simp only [govStep, hm, Bool.false_eq_true, if_false, w4_cd0, w4_des0]
  norm_num [sW4, pstate5_eq]

theorem w4_gov0_V : (govStep cfgW4 0.3 sW4).V = 0.74 := by
  have hm : cfgW4.manualOverride = false := rfl
  simp only [govStep, hm, Bool.false_eq_true, if_false, w4_cd0, w4_des0]
  norm_num [sW4, pstate5_eq]

theorem w4_s1 : stepsFrom cfgW4 sW4 hseqW 1 = (step cfgW4 0.3 sW4).state := rfl

theorem w4_s1_pIndex : (stepsFrom cfgW4 sW4 hseqW 1).pIndex = 5 := by
  rw [w4_s1, step_pIndex_eq, w4_gov0_pIndex]

theorem w4_s1_cooldown : (stepsFrom cfgW4 sW4 hseqW 1).slewCooldown = slewStepSec := by
  rw [w4_s1, step_cooldown_eq, w4_gov0_cooldown]

theorem w4_change0 :
    (stepsFrom cfgW4 sW4 hseqW 1).pIndex ≠ (stepsFrom cfgW4 sW4 hseqW 0).pIndex := by
  rw [w4_s1_pIndex]
  norm_num [stepsFrom, sW4]

theorem w4_P0_bounds :
    0 ≤ (step cfgW4 0.3 sW4).sample.power ∧ (step cfgW4 0.3 sW4).sample.power ≤ 0.6 := by
  have hPeq := step_power_eq cfgW4 0.3 sW4
  rw [w4_gov0_f, w4_gov0_V] at hPeq
  have hz : gammaT * (sW4.T - 25) = 0 := by norm_num [gammaT, sW4]
  rw [hz, Real.exp_zero] at hPeq
  have hc : cfgW4.ceffNF = 0 := rfl
  rw [hc] at hPeq
  have hk : kV * ((0.74 : ℝ) - 0.8) = (-0.12 : ℝ) := by rw [kV]; norm_num
  rw [hk] at hPeq
  have ha0 := Real.exp_pos (-0.12 : ℝ)
  have ha1 : Real.exp (-0.12 : ℝ) ≤ 1 := by
    rw [← Real.exp_zero]
    exact Real.exp_le_exp.mpr (by norm_num)
  have hPl : Pleak0 = 0.6 := rfl
  rw [hPeq, hPl]
  constructor <;> nlinarith [ha0, ha1]

theorem w4_T1_bounds :
    25 ≤ (stepsFrom cfgW4 sW4 hseqW 1).T ∧ (stepsFrom cfgW4 sW4 hseqW 1).T ≤ 30 := by
  have hT := step_T_eq cfgW4 0.3 sW4
  have hamb : cfgW4.ambient = 25 := rfl
  have hsT : sW4.T = 25 := rfl
  rw [hamb, hsT] at hT
  obtain ⟨hP0, hP6⟩ := w4_P0_bounds
  obtain ⟨hE0, hE1⟩ := exp_decay_bounds cfgW4 0.3 (by norm_num)
  have hR : Rth = 8 := by rw [Rth]; norm_num
  rw [hR] at hT hE0 hE1
  rw [w4_s1, hT]
  constructor <;>
    nlinarith [hP0, hP6, hE0, hE1,
      mul_nonneg hP0 hE0.le, mul_nonneg hP0 (sub_nonneg.mpr hE1)]

theorem w4_E1_bounds :
    0 ≤ (stepsFrom cfgW4 sW4 hseqW 1).EWh ∧ (stepsFrom cfgW4 sW4 hseqW 1).EWh ≤ 0.001 := by
  have hE := step_EWh_eq cfgW4 0.3 sW4
  have hs : sW4.EWh = 0 := rfl
  rw [hs] at hE
  rw [w4_s1, hE]
  obtain ⟨hP0, hP6⟩ := w4_P0_bounds
  constructor <;> nlinarith

theorem w4_cd1 : cooldownAfterDec (stepsFrom cfgW4 sW4 hseqW 1) 0.3 = 0 := by
  unfold cooldownAfterDec
  rw [w4_s1_cooldown]
  rw [if_pos (by norm_num [slewStepSec] : slewStepSec > (0 : ℝ))]
  norm_num [slewStepSec]

theorem w4_des1 : desiredIndex cfgW4 (stepsFrom cfgW4 sW4 hseqW 1) = 0 := by
  obtain ⟨hT25, hT30⟩ := w4_T1_bounds
  obtain ⟨hE0, hE1⟩ := w4_E1_bounds
  have hlim : cfgW4.thermalLimit = 1000 := rfl
  have hbatt : cfgW4.batteryWh = 0.75 := rfl
  have hdiv : (stepsFrom cfgW4 sW4 hseqW 1).EWh / cfgW4.batteryWh ≤ 0.002 := by
    rw [hbatt, div_le_iff₀ (by norm_num : (0 : ℝ) < 0.75)]
    linarith
  simp only [desiredIndex]
  rw [if_neg (not_lt.mpr (le_max_iff.mpr (Or.inr (by linarith))))]
  rw [if_neg (not_le.mpr (by rw [hlim]; linarith))]
  rw [if_neg (not_lt.mpr (by rw [hlim]; linarith))]
  exact w4_target

theorem w4_gov1_pIndex :
    (govStep cfgW4 0.3 (stepsFrom cfgW4 sW4 hseqW 1)).pIndex = 4 := by
  have hm : cfgW4.manualOverride = false := rfl
  simp only [govStep, hm, Bool.false_eq_true, if_false, w4_cd1, w4_des1]
  norm_num [w4_s1_pIndex]

theorem w4_change1 :
    (stepsFrom cfgW4 sW4 hseqW 2).pIndex ≠ (stepsFrom cfgW4 sW4 hseqW 1).pIndex := by
  have h2 : stepsFrom cfgW4 sW4 hseqW 2 =
      (step cfgW4 0.3 (stepsFrom cfgW4 sW4 hseqW 1)).state := rfl
  rw [h2, step_pIndex_eq, w4_gov1_pIndex, w4_s1_pIndex]
  norm_num

/-- Witness for C4: a run where the index changes in sub-steps 0 and 1 and the
two change times are exactly one slew window apart; a cooldown larger than the
sub-step blocks any change; the accepted change at sub-step 0 moved the index
by one step and reset the cooldown. -/
theorem governor_slew_limited_witness :
    (timeAt hseqW (0 + 1) + slewStepSec ≤ timeAt hseqW (1 + 1)) ∧
    ((stepsFrom cfgW4 sW4b hseqW (0 + 1)).pIndex = (stepsFrom cfgW4 sW4b hseqW 0).pIndex) ∧
    (((stepsFrom cfgW4 sW4 hseqW (0 + 1)).pIndex = (stepsFrom cfgW4 sW4 hseqW 0).pIndex + 1 ∨
        (stepsFrom cfgW4 sW4 hseqW (0 + 1)).pIndex = (stepsFrom cfgW4 sW4 hseqW 0).pIndex - 1) ∧
      (stepsFrom cfgW4 sW4 hseqW (0 + 1)).slewCooldown = slewStepSec) :=
  ⟨(governor_slew_limited cfgW4 sW4 hseqW rfl (fun _ => by norm_num [hseqW])).1 0 1
      (by norm_num) w4_change0 w4_change1,
    (governor_slew_limited cfgW4 sW4b hseqW rfl (fun _ => by norm_num [hseqW])).2.1 0
      (by norm_num [hseqW, stepsFrom, sW4b]),
    (governor_slew_limited cfgW4 sW4 hseqW rfl (fun _ => by norm_num [hseqW])).2.2 0
      w4_change0⟩

theorem govC1_f : (govStep cfgC1 0.25 sC1).f = 2.2 := by
  simp only [govStep, cfgC1]
  norm_num [clamp, fMin, fMax, min_def, max_def]

theorem govC1_V : (govStep cfgC1 0.25 sC1).V = 0.9 := by
  simp only [govStep, cfgC1]
  norm_num [clamp, vMin, vMax, min_def, max_def]

/-- C1 counterexample: in this sub-step the completion condition and the
battery condition both fire (remaining workload hits 0 and consumed energy
reaches capacity), yet the recorded termination reason is `battery`, not
`completed` — the later check overwrites the earlier one, so completion does
not take precedence. -/
theorem end_precedence_counterexample :
    (step cfgC1 0.25 sC1).state.remainingGI ≤ 0 ∧
    cfgC1.batteryWh ≤ (step cfgC1 0.25 sC1).state.EWh ∧
    (step cfgC1 0.25 sC1).localEnd = some EndReason.battery := by
  have hP : 0 ≤ (step cfgC1 0.25 sC1).sample.power := by
    rw [step_power_eq, govC1_f, govC1_V]
    have e1 := Real.exp_pos (kV * ((0.9 : ℝ) - 0.8))
    have e2 := Real.exp_pos (gammaT * (sC1.T - 25))
    have ha : alpha cfgC1 = 1 := by norm_num [alpha, cfgC1]
    rw [ha]
    norm_num [cfgC1, Pleak0]
    nlinarith [e1, e2]
  have hrem : (step cfgC1 0.25 sC1).state.remainingGI ≤ 0 := by
    rw [step_remaining_eq, govC1_f]
    have hi : ipc cfgC1 = 2 := by norm_num [ipc, IPCmin, IPCmax, cfgC1]
    rw [hi]
    norm_num [sC1, max_def]
  have hE : cfgC1.batteryWh ≤ (step cfgC1 0.25 sC1).state.EWh := by
    rw [step_EWh_eq]
    have hs : sC1.EWh = 0.75 := rfl
    have hb : cfgC1.batteryWh = 0.75 := rfl
    rw [hs, hb]
    nlinarith [hP]
  have hacc : (step cfgC1 0.25 sC1).state.overheatAccum < max 1 cfgC1.overheatGrace := by
    rw [step_accum_eq]
    have hg : max (1 : ℝ) cfgC1.overheatGrace = 5 := by norm_num [cfgC1, max_def]
    rw [hg]
    split_ifs <;> norm_num [sC1, max_def]
  refine ⟨hrem, hE, ?_⟩
  rw [step_localEnd_eq, if_neg (not_le.mpr hacc), if_pos hE]

/-- C1 amended: the termination reason of a sub-step is decided by the reverse
precedence — the overheat check runs last and wins over the battery check,
which wins over the completion check (the source's sequential writes at
App.tsx lines 170, 202, 203 mean the last condition to fire wins, not the
first); once a reason other than `running` is set, `advance` performs no
further sub-step. -/
theorem end_precedence_last_wins :
    (∀ (cfg : Config) (h : ℝ) (s : SimState),
      (step cfg h s).localEnd =
        if (step cfg h s).state.overheatAccum ≥ max 1 cfg.overheatGrace then
          some EndReason.overheat
        else if (step cfg h s).state.EWh ≥ cfg.batteryWh then some EndReason.battery
        else if (step cfg h s).state.remainingGI ≤ 0 then some EndReason.completed
        else none) ∧
    (∀ (cfg : Config) (fuel : ℕ) (vtime : ℝ) (es : EngineState),
      es.reason ≠ EndReason.running → advanceAux cfg fuel vtime es = es) := by
  constructor
  · intro cfg h s
    exact step_localEnd_eq cfg h s
  · intro cfg fuel vtime es hne
    cases fuel with
    | zero => rfl
    | succ n => simp [advanceAux, hne]

/-- Witness for the amended C1: a concrete engine state whose reason is
already `battery` is left untouched by `advance`. -/
theorem end_precedence_last_wins_witness :
    advanceAux cfgC1 3 1 ⟨sC1, EndReason.battery, [], false⟩ =
      ⟨sC1, EndReason.battery, [], false⟩ :=
  end_precedence_last_wins.2 cfgC1 3 1 ⟨sC1, EndReason.battery, [], false⟩ (by decide)

/-- C8: for a sub-step of positive size the new temperature lies (inclusively)
between the previous temperature and the steady-state target
`T_ss = ambient + P · R_th` of that sub-step's power — the discrete update
approaches and never overshoots the target. -/
theorem step_temperature_no_overshoot (cfg : Config) (h : ℝ) (s : SimState)
    (hh : 0 < h) :
    min s.T (cfg.ambient + (step cfg h s).sample.power * Rth) ≤ (step cfg h s).state.T ∧
    (step cfg h s).state.T ≤ max s.T (cfg.ambient + (step cfg h s).sample.power * Rth) := by
  have hT := step_T_eq cfg h s
  set P := (step cfg h s).sample.power with hPdef
  set Tss := cfg.ambient + P * Rth with hTss
  have htau : 0 < Rth * max 1e-6 (cfg.tauSec / max 1e-6 Rth) := by
    have h1 : (0 : ℝ) < Rth := by rw [Rth]; norm_num
    have h2 : (0 : ℝ) < max 1e-6 (cfg.tauSec / max 1e-6 Rth) :=
      lt_of_lt_of_le (by norm_num) (le_max_left _ _)
    exact mul_pos h1 h2
  set E := Real.exp (-h / (Rth * max 1e-6 (cfg.tauSec / max 1e-6 Rth))) with hE
  have hE0 : 0 < E := Real.exp_pos _
  have hE1 : E < 1 := by
    rw [hE, ← Real.exp_zero]
    exact Real.exp_lt_exp.mpr (div_neg_of_neg_of_pos (by linarith) htau)
  rw [hT]
  constructor
  · rcases le_total s.T Tss with hc | hc
    · refine min_le_iff.mpr (Or.inl ?_)
      nlinarith [mul_nonneg (sub_nonneg.mpr hc) (by linarith : (0:ℝ) ≤ 1 - E)]
    · refine min_le_iff.mpr (Or.inr ?_)
      nlinarith [mul_nonneg (sub_nonneg.mpr hc) hE0.le]
  · rcases le_total s.T Tss with hc | hc
    · refine le_max_iff.mpr (Or.inr ?_)
      nlinarith [mul_nonneg (sub_nonneg.mpr hc) hE0.le]
    · refine le_max_iff.mpr (Or.inl ?_)
      nlinarith [mul_nonneg (sub_nonneg.mpr hc) (by linarith : (0:ℝ) ≤ 1 - E)]

/-- Witness for C8 at a concrete configuration, state and step size. -/
theorem step_temperature_no_overshoot_witness :
    (0 : ℝ) < 1 ∧
    (min sC1.T (cfgC1.ambient + (step cfgC1 1 sC1).sample.power * Rth)
        ≤ (step cfgC1 1 sC1).state.T ∧
      (step cfgC1 1 sC1).state.T
        ≤ max sC1.T (cfgC1.ambient + (step cfgC1 1 sC1).sample.power * Rth)) :=
  ⟨by norm_num, step_temperature_no_overshoot cfgC1 1 sC1 (by norm_num)⟩

/-- C9 counterexample: with temperature exactly at the thermal limit but the
governor already at the lowest-performance table entry (index 6), the desired
index equals the current index — it is not driven one step lower (in either
direction), so the claim fails as stated at this input. -/
theorem thermal_stepdown_counterexample :
    sC9.T = cfgC9.thermalLimit ∧ desiredIndex cfgC9 sC9 = sC9.pIndex := by
  refine ⟨rfl, ?_⟩
  simp only [desiredIndex, cfgC9, sC9, nStates, pstates, List.length_cons, List.length_nil]
  norm_num [min_def, max_def]

/-- C9 amended: in automatic mode, if temperature equals the thermal limit and
the current index is not already the lowest-performance entry, the sub-step's
throttling indicator is true and the governor's desired index moves at least
one table step toward lower performance (numerically higher index). -/
theorem thermal_limit_triggers_stepdown (cfg : Config) (h : ℝ) (s : SimState)
    (hman : cfg.manualOverride = false) (hT : s.T = cfg.thermalLimit)
    (hidx : s.pIndex < (nStates : ℤ) - 1) :
    (step cfg h s).throttling = true ∧ s.pIndex + 1 ≤ desiredIndex cfg s := by
  have hge : s.T ≥ cfg.thermalLimit := le_of_eq hT.symm
  constructor
  · rw [step_throttling_eq]
    have htr : (govStep cfg h s).thermalTriggered = true := by
      simp only [govStep, hman, Bool.false_eq_true, if_false]
      rw [if_pos hge]
    rw [htr, Bool.true_or]
  · simp only [desiredIndex]
    rw [if_pos hge, min_eq_left (by omega : s.pIndex + 1 ≤ (nStates : ℤ) - 1)]
    split_ifs
    · exact le_max_left _ _
    · exact le_refl _

/-- Witness for the amended C9 at the reference configuration with the
governor at index 2. -/
theorem thermal_limit_triggers_stepdown_witness :
    (step cfgC9 0.25 ⟨42, 0, 0, 0, 1000, 0, 2, 2.2, 0.92⟩).throttling = true ∧
    (⟨42, 0, 0, 0, 1000, 0, 2, 2.2, 0.92⟩ : SimState).pIndex + 1 ≤
      desiredIndex cfgC9 ⟨42, 0, 0, 0, 1000, 0, 2, 2.2, 0.92⟩ :=
  thermal_limit_triggers_stepdown cfgC9 0.25 ⟨42, 0, 0, 0, 1000, 0, 2, 2.2, 0.92⟩
    rfl rfl (by decide)

/-- C10: `resetSim` always seeds the governor at table index 2
(2.2 GHz / 0.92 V) with zero cooldown, for every configuration; the
workload-mix-derived automatic target index is not applied (it can differ from
index 2, e.g. at workloadMix = 0 the target is index 6). -/
theorem resetSim_seeds_index_two :
    (∀ cfg : Config, (resetSim cfg).pIndex = 2 ∧ (resetSim cfg).slewCooldown = 0 ∧
      (resetSim cfg).f = 2.2 ∧ (resetSim cfg).V = 0.92) ∧
    (∃ cfg : Config, targetPIndex cfg ≠ (resetSim cfg).pIndex) := by
  constructor
  · intro cfg
    exact ⟨rfl, rfl, rfl, rfl⟩
  · refine ⟨⟨0, 0, false, 0, 0, 0, 0, 0, 0, 0, 0⟩, ?_⟩
    have h6 : round ((6 : ℝ)) = 6 := by
      rw [round_eq, Int.floor_eq_iff]
      norm_num
    have ht : targetPIndex ⟨0, 0, false, 0, 0, 0, 0, 0, 0, 0, 0⟩ = 6 := by
      simp only [targetPIndex, nStates, pstates, List.length]
      norm_num [h6]
    rw [ht]
    decide

end Soc
